import Mathlib

/-!
Server list (`src/windows/server_list.c`)

A shallow embedding of the server directory of the server list window: the
entry array (`_serverEntries`, `_numServerEntries`), its operations
(`add_server_entry`, `remove_server_entry`, the purge loop of `fetch_servers`),
the favourites file (`server_list_save_server_entries`,
`server_list_load_server_entries`), the address split of `join_server`, the
merge of `fetch_servers_callback`, the version check of the two join paths, and
sequences of these operations from the empty store.

Conventions.
* A C `char` is a byte, modelled as a `Nat`; a C string is the list of its
  bytes before the terminating NUL (`CStr`).  `cstr` turns a literal into such
  a list.
* The array `_serverEntries[0 .. _numServerEntries)` is a `List server_entry`;
  `_numServerEntries` is its length.
* An operation whose C behaviour is undefined on some input (a memory access
  outside an object, `strdup(NULL)`), or that leaves `_numServerEntries`
  negative, returns `none` there: the list model has no such state and what
  the program does next is not defined.
* The mutex calls do not change the data and are left out: the embedding is
  the sequential behaviour of each function.
-/

namespace ServerList

/-! ## Data model -/

/-- A C string: the bytes before the terminating NUL. -/
abbrev CStr := List Nat

/-- The bytes of a string literal. -/
def cstr (s : String) : CStr := s.toList.map Char.toNat

/-- Record `server_entry`. -/
structure server_entry where
  address : CStr
  name : CStr
  requiresPassword : Bool
  description : CStr
  version : CStr
  favourite : Bool
  players : Nat
  maxplayers : Nat
  deriving DecidableEq, Repr

/-- The array `_serverEntries` with its length `_numServerEntries`. -/
abbrev Store := List server_entry

/-- The C `int` read from a 32-bit two's complement pattern. -/
def toInt32 (n : Int) : Int :=
  let m := n % 4294967296
  if m < 2147483648 then m else m - 4294967296

/-! ## `add_server_entry`, `remove_server_entry` -/

/-- The search loop of `add_server_entry`: the first index `i` (counted from
`base`) with `strcmp(_serverEntries[i].address, address) == 0`. -/
def find_server_entry (address : CStr) : List server_entry → Nat → Option Nat
  | [], _ => none
  | e :: es, base =>
    if e.address = address then some base else find_server_entry address es (base + 1)

/-- Function `add_server_entry`: the store afterwards and the index of the entry
the returned pointer designates. -/
def add_server_entry (s : Store) (address : CStr) : Store × Nat :=
  match find_server_entry address s 0 with
  | some i => (s, i)
  | none =>
    (s ++ [{ address := address, name := address, requiresPassword := false,
             description := [], version := [], favourite := false,
             players := 0, maxplayers := 0 }], s.length)

/-- Function `remove_server_entry`.  The guard is `_numServerEntries > index`
only.  For `0 ≤ index` the `memmove` shifts the entries after `index` down by
one and the count drops by one.  For `index < 0` the guard also passes: the
`memmove` then writes `&_serverEntries[index]`, before the start of the array,
and the count is decremented all the same; that outcome is `none`. -/
def remove_server_entry (s : Store) (index : Int) : Option Store :=
  if (s.length : Int) > index then
    if index < 0 then none else some (s.eraseIdx index.toNat)
  else some s

/-! ## The purge loop of `fetch_servers` -/

/-- The loop `for (i = 0; i < _numServerEntries; i++)` of `fetch_servers`, from
the state where the loop variable is `i`.  After a removal the body sets
`i = 0` and the increment of the `for` makes it `1` before the next test. -/
def fetch_servers_loop (s : Store) (i : Nat) : Option Store :=
  if h : i < s.length then
    if !(s.get ⟨i, h⟩).favourite then
      match h' : remove_server_entry s (i : Int) with
      | some s' => fetch_servers_loop s' (0 + 1)
      | none => none
    else fetch_servers_loop s (i + 1)
  else some s
termination_by (s.length, s.length - i)
decreasing_by
  · simp only [remove_server_entry] at h'
    have hi : (s.length : Int) > (i : Int) := by exact_mod_cast h
    have hn : ¬ ((i : Int) < 0) := by omega
    simp only [hi, hn, if_true, if_false, Option.some.injEq, Int.toNat_ofNat] at h'
    subst h'
    apply Prod.Lex.left
    rw [List.length_eraseIdx]
    simp [h]
    omega
  · apply Prod.Lex.right
    omega

/-- The store part of `fetch_servers` (built without `DISABLE_HTTP`): the purge
of the entries that are not favourites, run before the request is issued. -/
def fetch_servers (s : Store) : Option Store := fetch_servers_loop s 0

/-! ## The favourites file `servers.cfg` -/

/-- The four bytes `SDL_RWwrite(file, &count, sizeof(uint32), 1)` writes for the
`int count` (little-endian). -/
def write_uint32 (n : Nat) : List Nat :=
  [n % 256, n / 256 % 256, n / 65536 % 256, n / 16777216 % 256]

/-- The value `SDL_RWwrite(file, str, strlen(str) + 1, 1)` appends: the string
and its terminating NUL. -/
def write_cstr (str : CStr) : List Nat := str ++ [0]

/-- The second loop of `server_list_save_server_entries`: the three strings of
every favourite, in array order. -/
def save_entries : List server_entry → List Nat
  | [] => []
  | serverInfo :: rest =>
    if serverInfo.favourite then
      write_cstr serverInfo.address ++ write_cstr serverInfo.name
        ++ write_cstr serverInfo.description ++ save_entries rest
    else save_entries rest

/-- The first loop of `server_list_save_server_entries`: the number of
favourites. -/
def save_count : List server_entry → Nat
  | [] => 0
  | serverInfo :: rest => if serverInfo.favourite then save_count rest + 1 else save_count rest

/-- Function `server_list_save_server_entries`: the contents of `servers.cfg`
after a save whose file opened.  (When the file does not open, an error is
logged and nothing else happens; the store is never changed.) -/
def server_list_save_server_entries (s : Store) : List Nat :=
  write_uint32 (save_count s) ++ save_entries s

/-- Function `freadstralloc`: the bytes up to the next NUL or the end of the
file, and the rest of the file after that NUL. -/
def freadstralloc : List Nat → CStr × List Nat
  | [] => ([], [])
  | c :: rest =>
    if c = 0 then ([], rest)
    else ((c :: (freadstralloc rest).1), (freadstralloc rest).2)

/-- The read `SDL_RWread(file, &_numServerEntries, sizeof(uint32), 1)` into the
`int` that `dispose_server_entry_list` has just set to 0: the little-endian
value of the first four bytes, as an `int`, and the rest of the file.  (With
fewer than four bytes left, the bytes that are there take the low positions and
the others stay 0.) -/
def read_count (file : List Nat) : Int × List Nat :=
  (toInt32 ((file.getD 0 0 + 256 * file.getD 1 0 + 65536 * file.getD 2 0
      + 16777216 * file.getD 3 0 : Nat) : Int), file.drop 4)

/-- The loop of `server_list_load_server_entries`: `count` entries, three
strings each, with the fixed values of the other fields. -/
def load_entries : Nat → List Nat → List server_entry
  | 0, _ => []
  | count + 1, file =>
    let address := freadstralloc file
    let name := freadstralloc address.2
    let description := freadstralloc name.2
    { address := address.1, name := name.1, requiresPassword := false,
      description := description.1, version := [], favourite := true,
      players := 0, maxplayers := 0 } :: load_entries count description.2

/-- Function `server_list_load_server_entries`.  `file` is the contents of
`servers.cfg`, `none` when `SDL_RWFromFile` returns NULL: the function then
returns before `dispose_server_entry_list`.  When the count read is negative
as an `int`, the loop runs zero times and `_numServerEntries` stays negative,
so that the next `add_server_entry` writes `_serverEntries[-1]`: `none`. -/
def server_list_load_server_entries (file : Option (List Nat)) (s : Store) : Option Store :=
  match file with
  | none => some s
  | some bytes =>
    if (read_count bytes).1 < 0 then none
    else some (load_entries (read_count bytes).1.toNat (read_count bytes).2)

/-! ## The address split of `join_server` -/

/-- The offset `strchr(s, c) - s`, `none` for NULL. -/
def strchr : CStr → Nat → Option Nat
  | [], _ => none
  | x :: xs, c => if x = c then some 0 else (strchr xs c).map (· + 1)

/-- The offset `strrchr(s, c) - s`, `none` for NULL. -/
def strrchr : CStr → Nat → Option Nat
  | [], _ => none
  | x :: xs, c =>
    match strrchr xs c with
    | some i => some (i + 1)
    | none => if x = c then some 0 else none

/-- Function `substr`: `length` bytes from offset `start` of `s`. -/
def substr (s : CStr) (start length : Nat) : CStr := (s.drop start).take length

/-- The white space `%d` skips (`isspace` in the C locale). -/
def isspace (c : Nat) : Bool := c = 32 || (9 ≤ c && c ≤ 13)

/-- A decimal digit. -/
def isdigit (c : Nat) : Bool := 48 ≤ c && c ≤ 57

/-- The digits `%d` consumes: the value of the longest prefix of digits,
accumulated from `acc`. -/
def scan_digits : CStr → Nat → Nat
  | [], acc => acc
  | c :: cs, acc => if isdigit c then scan_digits cs (acc * 10 + (c - 48)) else acc

/-- The value the C library's conversion to `long` returns: it saturates at
the ends of the 64-bit range. -/
def saturate_long (n : Int) : Int :=
  if n < -9223372036854775808 then -9223372036854775808
  else if 9223372036854775807 < n then 9223372036854775807
  else n

/-- The conversion `sscanf(s, "%d", &port)`: white space is skipped, then an
optional sign and at least one digit are read; what follows the digits is left
unread.  `none` when nothing is assigned (no digit there).  The numeral is
converted as a `long`, saturating, and stored through the `int *` by its low
32 bits (C itself leaves a value outside the range of `int` undefined). -/
def sscanf_d (s : CStr) : Option Int :=
  let s1 := s.dropWhile isspace
  let neg := s1.head? = some 45
  let s2 := if s1.head? = some 45 ∨ s1.head? = some 43 then s1.tail else s1
  match s2 with
  | [] => none
  | c :: _ =>
    if isdigit c then
      some (toInt32 (saturate_long
        (if neg then -(scan_digits s2 0 : Int) else (scan_digits s2 0 : Int))))
    else none

/-- The host and port `join_server` passes to `network_begin_client`.
`default_port` is `gConfigNetwork.default_port`.  The two bracket pointers and
the colon pointer all point into the string passed in, also after `address`
has been replaced by the copy made for the colon.  When the last `]` precedes
the last `[`, the length given to `substr` is negative: `none`. -/
def join_server_args (default_port : Int) (address : CStr) : Option (CStr × Int) :=
  let endbracket := strrchr address 93
  let startbracket := strrchr address 91
  let dot := strchr address 46
  let colon := strrchr address 58
  let split : CStr × Int :=
    match colon with
    | some c =>
      if endbracket.isSome || dot.isSome then
        (substr address 0 c, (sscanf_d (address.drop (c + 1))).getD default_port)
      else (address, default_port)
    | none => (address, default_port)
  match startbracket, endbracket with
  | some sb, some eb =>
    if eb < sb then none else some (substr address (sb + 1) (eb - sb - 1), split.2)
  | _, _ => some split

/-! ## Joining -/

/-- The string ids the join paths pass to `window_error_open`. -/
inductive rct_string_id where
  | STR_NONE
  | STR_UNABLE_TO_CONNECT_TO_SERVER
  | STR_MULTIPLAYER_INCORRECT_SOFTWARE_VERSION
  deriving DecidableEq, Repr

/-- The calls a window event makes to its collaborators, in order. -/
inductive Effect where
  /-- The store `RCT2_GLOBAL(RCT2_ADDRESS_COMMON_FORMAT_ARGS, void *) = str`. -/
  | set_common_format_args (str : CStr)
  /-- The call `window_error_open(title, message)`. -/
  | window_error_open (title message : rct_string_id)
  /-- The call `network_begin_client(host, port)`. -/
  | network_begin_client (host : CStr) (port : Int)
  /-- The write of `servers.cfg` by `server_list_save_server_entries`. -/
  | save_servers_cfg (contents : List Nat)
  deriving DecidableEq, Repr

/-- Function `join_server`.  `begin_client` is the result of
`network_begin_client`. -/
def join_server (begin_client : CStr → Int → Bool) (default_port : Int) (address : CStr) :
    Option (List Effect) :=
  match join_server_args default_port address with
  | none => none
  | some (host, port) =>
    if begin_client host port then some [Effect.network_begin_client host port]
    else some [Effect.network_begin_client host port,
      Effect.window_error_open rct_string_id.STR_UNABLE_TO_CONNECT_TO_SERVER
        rct_string_id.STR_NONE]

/-- Case `WIDX_LIST` of `window_server_list_mouseup`, `serverIndex` being
`w->selected_list_item` and `NETWORK_STREAM_ID` the macro of that name: the
calls made.  A version that differs reports the error and leaves the `switch`
before `join_server`. -/
def window_server_list_mouseup_list (begin_client : CStr → Int → Bool) (default_port : Int)
    (NETWORK_STREAM_ID : CStr) (s : Store) (serverIndex : Int) : Option (List Effect) :=
  if 0 ≤ serverIndex ∧ serverIndex < (s.length : Int) then
    match s.get? serverIndex.toNat with
    | some e =>
      if e.version ≠ NETWORK_STREAM_ID then
        some [Effect.set_common_format_args e.version,
          Effect.window_error_open rct_string_id.STR_UNABLE_TO_CONNECT_TO_SERVER
            rct_string_id.STR_MULTIPLAYER_INCORRECT_SOFTWARE_VERSION]
      else join_server begin_client default_port e.address
    | none => some []
  else some []

/-- The items of the dropdown (`DDIDX_JOIN`, `DDIDX_FAVOURITE`); `other` is any
other `dropdownIndex`. -/
inductive DropdownIndex where
  | DDIDX_JOIN
  | DDIDX_FAVOURITE
  | other
  deriving DecidableEq, Repr

/-- Function `window_server_list_dropdown`: the store afterwards and the calls
made. -/
def window_server_list_dropdown (begin_client : CStr → Int → Bool) (default_port : Int)
    (NETWORK_STREAM_ID : CStr) (s : Store) (serverIndex : Int)
    (dropdownIndex : DropdownIndex) : Option (Store × List Effect) :=
  if serverIndex < 0 then some (s, [])
  else if serverIndex ≥ (s.length : Int) then some (s, [])
  else
    match s.get? serverIndex.toNat with
    | none => some (s, [])
    | some e =>
      match dropdownIndex with
      | DropdownIndex.DDIDX_JOIN =>
        if e.version ≠ NETWORK_STREAM_ID then
          some (s, [Effect.set_common_format_args e.version,
            Effect.window_error_open rct_string_id.STR_UNABLE_TO_CONNECT_TO_SERVER
              rct_string_id.STR_MULTIPLAYER_INCORRECT_SOFTWARE_VERSION])
        else (join_server begin_client default_port e.address).map (fun effects => (s, effects))
      | DropdownIndex.DDIDX_FAVOURITE =>
        let s' := s.set serverIndex.toNat { e with favourite := !e.favourite }
        some (s', [Effect.save_servers_cfg (server_list_save_server_entries s')])
      | DropdownIndex.other => some (s, [])

/-! ## The response of the master server -/

/-- A JSON value as the JSON library hands it over (`json_t *`); the value of a
real is never read here. -/
inductive json_t where
  | object (members : List (CStr × json_t))
  | array (elements : List json_t)
  | string (value : CStr)
  | integer (value : Int)
  | real
  | jtrue
  | jfalse
  | jnull

/-- The lookup of `key` among the members of an object. -/
def json_members_get (key : CStr) : List (CStr × json_t) → Option json_t
  | [] => none
  | (k, v) :: rest => if k = key then some v else json_members_get key rest

/-- Library function `json_object_get`: NULL (`none`) when the value is NULL or
not an object, or has no such key. -/
def json_object_get (json : Option json_t) (key : CStr) : Option json_t :=
  match json with
  | some (json_t.object members) => json_members_get key members
  | _ => none

/-- Library function `json_array_get`: NULL when the value is NULL or not an
array, or the index is past its end. -/
def json_array_get (json : Option json_t) (index : Nat) : Option json_t :=
  match json with
  | some (json_t.array elements) => elements.get? index
  | _ => none

/-- Library macro `json_is_number`. -/
def json_is_number (json : Option json_t) : Bool :=
  match json with
  | some (json_t.integer _) => true
  | some json_t.real => true
  | _ => false

/-- Library function `json_integer_value`: 0 unless the value is an integer. -/
def json_integer_value (json : Option json_t) : Int :=
  match json with
  | some (json_t.integer value) => value
  | _ => 0

/-- Library function `json_string_value`: NULL unless the value is a string. -/
def json_string_value (json : Option json_t) : Option CStr :=
  match json with
  | some (json_t.string value) => some value
  | _ => none

/-- Library macro `json_boolean_value`: whether the value is JSON `true`. -/
def json_boolean_value (json : Option json_t) : Bool :=
  match json with
  | some json_t.jtrue => true
  | _ => false

/-- The text `%d` prints for an `int`. -/
def format_d (n : Int) : CStr := cstr n.repr

/-- The text `%s` prints; for a NULL argument the C libraries print
`(null)`. -/
def format_s (str : Option CStr) : CStr := str.getD (cstr "(null)")

/-- The string `snprintf(address, sizeof(address), "%s:%d", ip, port)` leaves in
the 256-byte buffer: at most 255 bytes of the text. -/
def snprintf_address (ip : Option CStr) (port : Int) : CStr :=
  (format_s ip ++ [58] ++ format_d port).take 255

/-- The body of the loop of `fetch_servers_callback` for one element of the
`servers` array.  `strdup` of the NULL that `json_string_value` returns for a
value that is not a string is `none`. -/
def fetch_servers_callback_server (s : Store) (server : json_t) : Option Store :=
  match server with
  | json_t.object _ =>
    let port := json_object_get (some server) (cstr "port")
    let name := json_object_get (some server) (cstr "name")
    let description := json_object_get (some server) (cstr "description")
    let requiresPassword := json_object_get (some server) (cstr "requiresPassword")
    let version := json_object_get (some server) (cstr "version")
    let players := json_object_get (some server) (cstr "players")
    let maxPlayers := json_object_get (some server) (cstr "maxPlayers")
    let ip := json_object_get (some server) (cstr "ip")
    let ip4 := json_object_get ip (cstr "v4")
    let addressIp := json_array_get ip4 0
    if name.isNone || version.isNone then some s
    else
      let address := snprintf_address (json_string_value addressIp)
        (toInt32 (json_integer_value port))
      let added := add_server_entry s address
      match json_string_value name,
        (if description.isNone then some [] else json_string_value description),
        json_string_value version with
      | some newname, some newdescription, some newversion =>
        match added.1.get? added.2 with
        | some newserver =>
          some (added.1.set added.2
            { newserver with
              name := newname
              requiresPassword := json_boolean_value requiresPassword
              description := newdescription
              version := newversion
              players := (json_integer_value players % 256).toNat
              maxplayers := (json_integer_value maxPlayers % 256).toNat })
        | none => none
      | _, _, _ => none
  | _ => some s

/-- The loop of `fetch_servers_callback` over the elements of `servers`. -/
def fetch_servers_callback_loop : List json_t → Store → Option Store
  | [], s => some s
  | server :: rest, s =>
    match fetch_servers_callback_server s server with
    | some s' => fetch_servers_callback_loop rest s'
    | none => none

/-- Function `fetch_servers_callback`, the store afterwards.  `response` is
`none` for a NULL response, else its root. -/
def fetch_servers_callback (s : Store) (response : Option json_t) : Option Store :=
  match response with
  | none => some s
  | some root =>
    if !json_is_number (json_object_get (some root) (cstr "status")) then some s
    else if toInt32 (json_integer_value (json_object_get (some root) (cstr "status"))) ≠ 200 then
      some s
    else
      match json_object_get (some root) (cstr "servers") with
      | some (json_t.array elements) => fetch_servers_callback_loop elements s
      | _ => some s

/-- Function `get_total_player_count` (a `uint32` sum). -/
def get_total_player_count (s : Store) : Nat :=
  (s.foldl (fun numPlayers serverDetails => numPlayers + serverDetails.players) 0) % 4294967296

/-! ## Notions the statements use -/

/-- An entry as `add_server_entry` creates it, with the favourite flag given. -/
def sample_entry (address : CStr) (favourite : Bool) : server_entry :=
  { address := address, name := address, requiresPassword := false, description := [],
    version := [], favourite := favourite, players := 0, maxplayers := 0 }

/-- The value of a decimal numeral, most significant digit first. -/
def decimal_value (P : CStr) : Nat := Nat.ofDigits 10 (P.reverse.map (fun c => c - 48))

/-- A text without the sign it may start with. -/
def strip_sign : CStr → CStr
  | [] => []
  | c :: rest => if c = 45 ∨ c = 43 then rest else c :: rest

/-- Whether a text begins, after optional white space and an optional sign,
with a decimal digit. -/
def begins_with_numeral (text : CStr) : Bool :=
  match strip_sign (text.dropWhile isspace) with
  | [] => false
  | c :: _ => isdigit c

/-- One server object of a response: `Foo`, version `v1`, no password, 2 of 8
players, with the given first IPv4 string and port. -/
def sample_server (ip : CStr) (port : Int) : json_t :=
  json_t.object [(cstr "name", json_t.string (cstr "Foo")),
    (cstr "version", json_t.string (cstr "v1")),
    (cstr "requiresPassword", json_t.jfalse),
    (cstr "players", json_t.integer 2), (cstr "maxPlayers", json_t.integer 8),
    (cstr "port", json_t.integer port),
    (cstr "ip", json_t.object [(cstr "v4", json_t.array [json_t.string ip])])]

/-- A response with status 200 whose `servers` array holds `sample_server`. -/
def sample_response (ip : CStr) (port : Int) : json_t :=
  json_t.object [(cstr "status", json_t.integer 200),
    (cstr "servers", json_t.array [sample_server ip port])]

/-- A response with status 200 and the given `servers` array. -/
def response_of (servers : List json_t) : json_t :=
  json_t.object [(cstr "status", json_t.integer 200), (cstr "servers", json_t.array servers)]

/-- A server object with a name and an address but no `version`. -/
def unversioned_server : json_t :=
  json_t.object [(cstr "name", json_t.string (cstr "Bar")),
    (cstr "port", json_t.integer 11754),
    (cstr "ip", json_t.object [(cstr "v4", json_t.array [json_t.string (cstr "5.6.7.8")])])]

/-! ## Sequences of operations on the store -/

/-- One operation on the store: a load of `servers.cfg` (`none` when the file
does not open), `add_server_entry`, `remove_server_entry`, the favourite item
of the dropdown on the selected index, the purge of `fetch_servers`, and
`fetch_servers_callback` on a response. -/
inductive Operation where
  | load (file : Option (List Nat))
  | add (address : CStr)
  | remove (index : Int)
  | toggle_favourite (serverIndex : Int)
  | purge
  | merge (response : Option json_t)

/-- The store after one operation, `none` where the operation has no defined
outcome.  The favourite item does not use the connection arguments of
`window_server_list_dropdown`. -/
def apply_operation (s : Store) : Operation → Option Store
  | Operation.load file => server_list_load_server_entries file s
  | Operation.add address => some (add_server_entry s address).1
  | Operation.remove index => remove_server_entry s index
  | Operation.toggle_favourite serverIndex =>
    (window_server_list_dropdown (fun _ _ => false) 0 [] s serverIndex
      DropdownIndex.DDIDX_FAVOURITE).map Prod.fst
  | Operation.purge => fetch_servers s
  | Operation.merge response => fetch_servers_callback s response

/-- The store after a sequence of operations. -/
def run_operations : Store → List Operation → Option Store
  | s, [] => some s
  | s, op :: ops =>
    match apply_operation s op with
    | some s' => run_operations s' ops
    | none => none

/-- No two entries of the store have the same address. -/
def unique_addresses (s : Store) : Prop := (s.map (fun e => e.address)).Nodup

/-- The entries `server_list_load_server_entries` leaves in the store for a
file that opened, `none` when its count is negative. -/
def decoded_entries (file : List Nat) : Option (List server_entry) :=
  server_list_load_server_entries (some file) []

/-- A favourites file of two records, both with the address `a:1`. -/
def duplicate_file : List Nat :=
  write_uint32 2 ++ write_cstr (cstr "a:1") ++ write_cstr (cstr "x") ++ write_cstr []
    ++ write_cstr (cstr "a:1") ++ write_cstr (cstr "y") ++ write_cstr []

/-- A favourites file of one record, `a:1`. -/
def single_file : List Nat :=
  write_uint32 1 ++ write_cstr (cstr "a:1") ++ write_cstr (cstr "x") ++ write_cstr []

/-- A sequence that uses every operation. -/
def sample_operations : List Operation :=
  [Operation.load (some single_file), Operation.add (cstr "b:2"), Operation.add (cstr "b:2"),
   Operation.merge (some (sample_response (cstr "1.2.3.4") 11753)),
   Operation.toggle_favourite 1, Operation.purge, Operation.remove 0]

/-! ## Lemmas -/

theorem toInt32_of_range (n : Int) (h : -2147483648 ≤ n ∧ n < 2147483648) : toInt32 n = n := by
  simp only [toInt32]
  split <;> omega

theorem toInt32_of_lt (n : Nat) (h : n < 2147483648) : toInt32 (n : Int) = (n : Int) :=
  toInt32_of_range _ (by omega)

theorem find_server_entry_append (address : CStr) (xs ys : List server_entry) (base : Nat) :
    find_server_entry address (xs ++ ys) base =
      match find_server_entry address xs base with
      | some i => some i
      | none => find_server_entry address ys (base + xs.length) := by
  induction xs generalizing base with
  | nil => simp [find_server_entry]
  | cons x xs ih =>
    by_cases hx : x.address = address
    · simp [find_server_entry, hx]
    · rw [List.cons_append, find_server_entry, if_neg hx, ih, find_server_entry, if_neg hx,
        List.length_cons, Nat.add_assoc, Nat.add_comm 1]

theorem find_server_entry_some (address : CStr) (s : List server_entry) (base i : Nat)
    (h : find_server_entry address s base = some i) :
    ∃ e, s.get? (i - base) = some e ∧ e.address = address ∧ base ≤ i := by
  induction s generalizing base with
  | nil => simp [find_server_entry] at h
  | cons x xs ih =>
    by_cases hx : x.address = address
    · simp only [find_server_entry, hx, if_true, Option.some.injEq] at h
      subst h
      exact ⟨x, by simp, hx, le_refl _⟩
    · simp only [find_server_entry, hx, if_false] at h
      obtain ⟨e, he, ha, hb⟩ := ih (base + 1) h
      refine ⟨e, ?_, ha, by omega⟩
      have : i - base = (i - (base + 1)) + 1 := by omega
      rw [this]
      simpa using he

/-- The pointer `add_server_entry` returns designates an entry of the store,
with the address asked for. -/
theorem add_server_entry_get (s : Store) (address : CStr) :
    ∃ e, (add_server_entry s address).1.get? (add_server_entry s address).2 = some e
      ∧ e.address = address := by
  unfold add_server_entry
  cases h : find_server_entry address s 0 with
  | some i =>
    obtain ⟨e, he, ha, _⟩ := find_server_entry_some address s 0 i h
    exact ⟨e, by simpa using he, ha⟩
  | none =>
    exact ⟨(⟨address, address, false, [], [], false, 0, 0⟩ : server_entry), by simp, rfl⟩

theorem freadstralloc_write_cstr (str : CStr) (rest : List Nat) (h : (0 : Nat) ∉ str) :
    freadstralloc (write_cstr str ++ rest) = (str, rest) := by
  induction str with
  | nil => simp [write_cstr, freadstralloc]
  | cons c cs ih =>
    have hc : c ≠ 0 := fun hc => h (by simp [hc])
    have hcs : (0 : Nat) ∉ cs := fun hm => h (List.mem_cons_of_mem _ hm)
    have ih' := ih hcs
    simp only [write_cstr, List.cons_append, List.append_assoc, List.nil_append] at ih' ⊢
    simp [freadstralloc, hc, ih']

theorem read_count_write_uint32 (n : Nat) (rest : List Nat) (h : n < 2147483648) :
    read_count (write_uint32 n ++ rest) = ((n : Int), rest) := by
  simp only [read_count, write_uint32, List.cons_append, List.nil_append, List.getD_cons_zero,
    List.getD_cons_succ, List.drop_succ_cons, List.drop_zero]
  have : n % 256 + 256 * (n / 256 % 256) + 65536 * (n / 65536 % 256)
      + 16777216 * (n / 16777216 % 256) = n := by omega
  rw [this, toInt32_of_lt n h]

theorem save_count_le (s : Store) : save_count s ≤ s.length := by
  induction s with
  | nil => simp [save_count]
  | cons e es ih => simp only [save_count, List.length_cons]; split <;> omega

theorem load_entries_save_entries (s : Store)
    (h : ∀ e ∈ s, (0 : Nat) ∉ e.address ∧ (0 : Nat) ∉ e.name ∧ (0 : Nat) ∉ e.description) :
    load_entries (save_count s) (save_entries s)
      = (s.filter (fun e => e.favourite)).map (fun e =>
          { address := e.address, name := e.name, requiresPassword := false,
            description := e.description, version := [], favourite := true,
            players := 0, maxplayers := 0 }) := by
  induction s with
  | nil => simp [save_count, save_entries, load_entries]
  | cons e es ih =>
    have he := h e (List.mem_cons_self _ _)
    have ih' := ih (fun x hx => h x (List.mem_cons_of_mem _ hx))
    by_cases hf : e.favourite = true
    · simp only [save_count, save_entries, hf, if_true, load_entries, List.append_assoc,
        freadstralloc_write_cstr _ _ he.1, freadstralloc_write_cstr _ _ he.2.1,
        freadstralloc_write_cstr _ _ he.2.2, ih']
      simp [List.filter, hf]
    · simp only [save_count, save_entries, hf, if_false]
      simp [List.filter, hf, ih']

theorem strrchr_eq_none (s : CStr) (c : Nat) (h : c ∉ s) : strrchr s c = none := by
  induction s with
  | nil => rfl
  | cons x xs ih =>
    have hx : x ≠ c := fun hx => h (by simp [hx])
    have hxs : c ∉ xs := fun hm => h (List.mem_cons_of_mem _ hm)
    simp [strrchr, ih hxs, hx]

theorem strrchr_append_cons (xs ys : CStr) (c : Nat) (h : c ∉ ys) :
    strrchr (xs ++ c :: ys) c = some xs.length := by
  induction xs with
  | nil => simp [strrchr, strrchr_eq_none ys c h]
  | cons x xs ih => simp [strrchr, ih]

theorem strchr_isSome (s : CStr) (c : Nat) (h : c ∈ s) : (strchr s c).isSome = true := by
  induction s with
  | nil => simp at h
  | cons x xs ih =>
    by_cases hx : x = c
    · simp [strchr, hx]
    · have hxs : c ∈ xs := by
        rcases List.mem_cons.1 h with h1 | h1
        · exact absurd h1.symm hx
        · exact h1
      have := ih hxs
      simp only [strchr, hx, if_false, Option.isSome_map']
      exact this

theorem scan_digits_eq (P : CStr) (acc : Nat) (h : ∀ c ∈ P, isdigit c = true) :
    scan_digits P acc = acc * 10 ^ P.length + decimal_value P := by
  induction P generalizing acc with
  | nil => simp [scan_digits, decimal_value]
  | cons c cs ih =>
    have hc := h c (List.mem_cons_self _ _)
    have hcs : ∀ d ∈ cs, isdigit d = true := fun d hd => h d (List.mem_cons_of_mem _ hd)
    simp only [scan_digits, hc, if_true, ih _ hcs, decimal_value, List.reverse_cons,
      List.map_append, List.map_cons, List.map_nil, Nat.ofDigits_append, Nat.ofDigits_singleton,
      List.length_map, List.length_reverse, List.length_cons]
    ring

/-- On a non-empty string of digits `%d` assigns its decimal value. -/
theorem sscanf_d_digits (P : CStr) (hne : P ≠ []) (h : ∀ c ∈ P, isdigit c = true)
    (hr : decimal_value P < 2147483648) : sscanf_d P = some (decimal_value P : Int) := by
  cases P with
  | nil => exact absurd rfl hne
  | cons c cs =>
    have hc := h c (List.mem_cons_self _ _)
    have hc' : 48 ≤ c ∧ c ≤ 57 := by simpa [isdigit] using hc
    have hsp : isspace c = false := by
      simp only [isspace, Bool.or_eq_false_iff, decide_eq_false_iff_not, Bool.and_eq_false_imp,
        decide_eq_true_eq]
      omega
    have h45 : c ≠ 45 := by omega
    have h43 : c ≠ 43 := by omega
    have hs := scan_digits_eq (c :: cs) 0 h
    simp only [Nat.zero_mul, Nat.zero_add] at hs
    simp only [sscanf_d, List.dropWhile_cons, hsp, List.head?_cons, Option.some.injEq, h45, h43,
      or_self, if_false, hc, if_true, hs, Bool.false_eq_true]
    have hsat : saturate_long (decimal_value (c :: cs) : Int) = (decimal_value (c :: cs) : Int) := by
      simp only [saturate_long]
      split
      · omega
      · split
        · omega
        · rfl
    simp [hsat, toInt32_of_lt _ hr]

/-- Where no numeral begins, `%d` assigns nothing. -/
theorem sscanf_d_eq_none (text : CStr) (h : begins_with_numeral text = false) :
    sscanf_d text = none := by
  unfold begins_with_numeral at h
  unfold sscanf_d
  cases hs : text.dropWhile isspace with
  | nil => simp
  | cons c rest =>
    rw [hs] at h
    simp only [strip_sign] at h
    simp only [List.head?_cons, Option.some.injEq, List.tail_cons]
    by_cases hc : c = 45 ∨ c = 43
    · simp only [hc, if_true] at h ⊢
      cases rest with
      | nil => rfl
      | cons d ds => simp only at h; simp [h]
    · simp only [hc, if_false] at h ⊢
      simp [h]

theorem not_mem_of_digits (P : CStr) (k : Nat) (h : ∀ c ∈ P, isdigit c = true)
    (hk : isdigit k = false) : k ∉ P := by
  intro hm
  have := h k hm
  rw [hk] at this
  exact Bool.false_ne_true this

theorem substr_zero_append (xs ys : CStr) : substr (xs ++ ys) 0 xs.length = xs := by
  simp [substr]

theorem fetch_servers_callback_loop_append (xs ys : List json_t) (s : Store) :
    fetch_servers_callback_loop (xs ++ ys) s
      = (fetch_servers_callback_loop xs s).bind (fetch_servers_callback_loop ys) := by
  induction xs generalizing s with
  | nil => simp [fetch_servers_callback_loop]
  | cons x xs ih =>
    simp only [List.cons_append, fetch_servers_callback_loop]
    cases fetch_servers_callback_server s x with
    | none => simp
    | some s' => simpa using ih s'

theorem fetch_servers_callback_server_skips (s : Store) (bad : json_t)
    (hbad : (∀ members, bad ≠ json_t.object members)
      ∨ json_object_get (some bad) (cstr "name") = none
      ∨ json_object_get (some bad) (cstr "version") = none) :
    fetch_servers_callback_server s bad = some s := by
  cases bad with
  | object members =>
    rcases hbad with h | h | h
    · exact absurd rfl (h members)
    · simp [fetch_servers_callback_server, h]
    · simp [fetch_servers_callback_server, h]
  | _ => rfl

theorem find_server_entry_none (address : CStr) (s : List server_entry) (base : Nat)
    (h : find_server_entry address s base = none) : address ∉ s.map (fun e => e.address) := by
  induction s generalizing base with
  | nil => simp
  | cons x xs ih =>
    by_cases hx : x.address = address
    · simp [find_server_entry, hx] at h
    · simp only [find_server_entry, hx, if_false] at h
      simp only [List.map_cons, List.mem_cons, not_or]
      exact ⟨fun h' => hx h'.symm, ih _ h⟩

theorem unique_addresses_add (s : Store) (address : CStr) (h : unique_addresses s) :
    unique_addresses (add_server_entry s address).1 := by
  unfold add_server_entry
  cases hf : find_server_entry address s 0 with
  | some i => exact h
  | none =>
    have hn := find_server_entry_none address s 0 hf
    simp only [unique_addresses, List.map_append, List.map_cons, List.map_nil]
    exact List.Nodup.append h (List.nodup_singleton _) (by simpa using hn)

theorem map_address_set (s : Store) (i : Nat) (e e' : server_entry) (h : s.get? i = some e)
    (ha : e'.address = e.address) :
    (s.set i e').map (fun x => x.address) = s.map (fun x => x.address) := by
  induction s generalizing i with
  | nil => rfl
  | cons x xs ih =>
    cases i with
    | zero =>
      simp only [List.get?_cons_zero, Option.some.injEq] at h
      subst h
      simp [ha]
    | succ j =>
      simp only [List.get?_cons_succ] at h
      simp only [List.set_cons_succ, List.map_cons, ih j h]

theorem unique_addresses_sublist (s s' : Store) (h : List.Sublist s' s)
    (hu : unique_addresses s) : unique_addresses s' :=
  List.Nodup.sublist (List.Sublist.map _ h) hu

theorem remove_server_entry_sublist (s s' : Store) (index : Int)
    (h : remove_server_entry s index = some s') : List.Sublist s' s := by
  unfold remove_server_entry at h
  split at h
  · split at h
    · cases h
    · cases h; exact List.eraseIdx_sublist _ _
  · cases h; exact List.Sublist.refl _

theorem fetch_servers_loop_sublist (s : Store) (i : Nat) :
    ∀ s', fetch_servers_loop s i = some s' → List.Sublist s' s := by
  induction s, i using fetch_servers_loop.induct with
  | case1 s i h hf s1 h' ih =>
    intro s' hs
    rw [fetch_servers_loop] at hs
    simp only [h, hf, dite_true, if_true] at hs
    split at hs
    · rename_i s2 h2
      have : s2 = s1 := by rw [h'] at h2; cases h2; rfl
      subst this
      exact List.Sublist.trans (ih s' hs) (remove_server_entry_sublist _ _ _ h')
    · cases hs
  | case2 s i h hf h' =>
    intro s' hs
    rw [fetch_servers_loop] at hs
    simp only [h, hf, dite_true, if_true] at hs
    split at hs
    · rename_i s2 h2
      rw [h'] at h2; cases h2
    · cases hs
  | case3 s i h hf ih =>
    intro s' hs
    rw [fetch_servers_loop] at hs
    simp only [h, hf, dite_true, if_false] at hs
    exact ih s' hs
  | case4 s i h =>
    intro s' hs
    rw [fetch_servers_loop] at hs
    simp only [h, dite_false, Option.some.injEq] at hs
    subst hs
    exact List.Sublist.refl _

theorem unique_addresses_callback_server (s : Store) (server : json_t) (s' : Store)
    (h : fetch_servers_callback_server s server = some s') (hu : unique_addresses s) :
    unique_addresses s' := by
  cases server with
  | object members =>
    simp only [fetch_servers_callback_server] at h
    split at h
    · cases h; exact hu
    · split at h
      · split at h
        · rename_i e0 he0
          cases h
          unfold unique_addresses
          refine Eq.mpr (congrArg List.Nodup (map_address_set _ _ e0 _ he0 rfl)) ?_
          exact unique_addresses_add s _ hu
        · cases h
      · cases h
  | _ =>
    simp only [fetch_servers_callback_server] at h
    cases h; exact hu

theorem unique_addresses_callback_loop (servers : List json_t) (s s' : Store)
    (h : fetch_servers_callback_loop servers s = some s') (hu : unique_addresses s) :
    unique_addresses s' := by
  induction servers generalizing s with
  | nil => simp only [fetch_servers_callback_loop, Option.some.injEq] at h; subst h; exact hu
  | cons x xs ih =>
    simp only [fetch_servers_callback_loop] at h
    cases hx : fetch_servers_callback_server s x with
    | none => rw [hx] at h; cases h
    | some t =>
      rw [hx] at h
      exact ih t h (unique_addresses_callback_server s x t hx hu)

theorem unique_addresses_callback (s s' : Store) (response : Option json_t)
    (h : fetch_servers_callback s response = some s') (hu : unique_addresses s) :
    unique_addresses s' := by
  unfold fetch_servers_callback at h
  split at h
  · cases h; exact hu
  · split at h
    · cases h; exact hu
    · split at h
      · cases h; exact hu
      · split at h
        · exact unique_addresses_callback_loop _ s s' h hu
        · cases h; exact hu

theorem unique_addresses_toggle (s s' : Store) (serverIndex : Int)
    (h : (window_server_list_dropdown (fun _ _ => false) 0 [] s serverIndex
      DropdownIndex.DDIDX_FAVOURITE).map Prod.fst = some s') (hu : unique_addresses s) :
    unique_addresses s' := by
  unfold window_server_list_dropdown at h
  split at h
  · cases h; exact hu
  · split at h
    · cases h; exact hu
    · split at h
      · cases h; exact hu
      · rename_i e he
        simp only [Option.map_some', Option.some.injEq] at h
        subst h
        unfold unique_addresses
        refine Eq.mpr (congrArg List.Nodup (map_address_set _ _ e _ he rfl)) ?_
        exact hu

theorem unique_addresses_apply (s s' : Store) (op : Operation)
    (hload : ∀ file entries, op = Operation.load (some file) →
      decoded_entries file = some entries → unique_addresses entries)
    (h : apply_operation s op = some s') (hu : unique_addresses s) : unique_addresses s' := by
  cases op with
  | load file =>
    cases file with
    | none =>
      simp only [apply_operation, server_list_load_server_entries, Option.some.injEq] at h
      subst h
      exact hu
    | some bytes =>
      refine hload bytes s' rfl ?_
      simp only [apply_operation, server_list_load_server_entries] at h
      simp only [decoded_entries, server_list_load_server_entries]
      exact h
  | add address =>
    simp only [apply_operation, Option.some.injEq] at h
    subst h
    exact unique_addresses_add s address hu
  | remove index =>
    exact unique_addresses_sublist s s' (remove_server_entry_sublist s s' index h) hu
  | toggle_favourite serverIndex => exact unique_addresses_toggle s s' serverIndex h hu
  | purge => exact unique_addresses_sublist s s' (fetch_servers_loop_sublist s 0 s' h) hu
  | merge response => exact unique_addresses_callback s s' response h hu

theorem unique_addresses_run (ops : List Operation) (s s' : Store)
    (hload : ∀ file entries, Operation.load (some file) ∈ ops →
      decoded_entries file = some entries → unique_addresses entries)
    (h : run_operations s ops = some s') (hu : unique_addresses s) : unique_addresses s' := by
  induction ops generalizing s with
  | nil => simp only [run_operations, Option.some.injEq] at h; subst h; exact hu
  | cons op ops ih =>
    simp only [run_operations] at h
    cases hop : apply_operation s op with
    | none => rw [hop] at h; cases h
    | some t =>
      rw [hop] at h
      refine ih t (fun file entries hm => hload file entries (List.mem_cons_of_mem _ hm)) h ?_
      exact unique_addresses_apply s t op
        (fun file entries hf => hload file entries (by rw [hf]; exact List.mem_cons_self _ _))
        hop hu

theorem decoded_entries_save (s : Store) (hcount : s.length < 2147483648)
    (h : ∀ e ∈ s, (0 : Nat) ∉ e.address ∧ (0 : Nat) ∉ e.name ∧ (0 : Nat) ∉ e.description)
    (hu : unique_addresses s) :
    ∃ entries, decoded_entries (server_list_save_server_entries s) = some entries
      ∧ unique_addresses entries := by
  have hc : save_count s < 2147483648 := lt_of_le_of_lt (save_count_le s) hcount
  have hnn : ¬ ((save_count s : Int) < 0) := by omega
  refine ⟨load_entries (save_count s) (save_entries s), ?_, ?_⟩
  · simp only [decoded_entries, server_list_load_server_entries, server_list_save_server_entries,
      read_count_write_uint32 _ _ hc, Int.toNat_ofNat, hnn, if_false]
  · rw [load_entries_save_entries s h]
    simp only [unique_addresses, List.map_map]
    exact List.Nodup.sublist (List.Sublist.map _ (List.filter_sublist s)) hu

/-- A count of `ff ff ff ff` is -1 as an `int`: the load has no defined outcome. -/
theorem load_negative_count (s : Store) :
    server_list_load_server_entries (some [255, 255, 255, 255]) s = none := by
  rfl

/-- A numeral at or above 2^63 saturates as a `long` and is stored as -1. -/
theorem sscanf_d_saturates : sscanf_d (cstr "9223372036854775808") = some (-1) := by
  decide

theorem run_operations_append (xs ys : List Operation) (s : Store) :
    run_operations s (xs ++ ys) = (run_operations s xs).bind (fun t => run_operations t ys) := by
  induction xs generalizing s with
  | nil => simp [run_operations]
  | cons x xs ih =>
    simp only [List.cons_append, run_operations]
    cases apply_operation s x with
    | none => simp
    | some t => simpa using ih t

theorem sample_run : run_operations [] sample_operations
    = some [sample_entry (cstr "b:2") true] := by
  have h1 : run_operations [] [Operation.load (some single_file), Operation.add (cstr "b:2"),
      Operation.add (cstr "b:2"),
      Operation.merge (some (sample_response (cstr "1.2.3.4") 11753)),
      Operation.toggle_favourite 1] = some [{ sample_entry (cstr "a:1") true with name := cstr "x" },
        sample_entry (cstr "b:2") true,
        { address := cstr "1.2.3.4:11753", name := cstr "Foo", requiresPassword := false,
          description := [], version := cstr "v1", favourite := false,
          players := 2, maxplayers := 8 }] := by decide
  have h2 : sample_operations = [Operation.load (some single_file), Operation.add (cstr "b:2"),
      Operation.add (cstr "b:2"),
      Operation.merge (some (sample_response (cstr "1.2.3.4") 11753)),
      Operation.toggle_favourite 1] ++ [Operation.purge, Operation.remove 0] := rfl
  rw [h2, run_operations_append, h1, Option.some_bind]
  simp [run_operations, apply_operation, fetch_servers, fetch_servers_loop, remove_server_entry,
    sample_entry]

/-! ## The claims -/

/-- Claim C1: the purge of `fetch_servers` does not remove every entry that is
not a favourite.  After a removal the scan resumes at index 1, so the entry
that has moved to index 0 is not looked at: of two non-favourites the second
stays, and a store of three non-favourites followed by two favourites ends
with three entries. -/
theorem fetch_servers_leaves_non_favourite :
    fetch_servers [sample_entry (cstr "a") false, sample_entry (cstr "b") false]
        = some [sample_entry (cstr "b") false]
      ∧ (fetch_servers [sample_entry (cstr "a") false, sample_entry (cstr "b") false,
          sample_entry (cstr "c") false, sample_entry (cstr "d") true,
          sample_entry (cstr "e") true]).map List.length = some 3 := by
  constructor <;> simp [fetch_servers, fetch_servers_loop, remove_server_entry, sample_entry]

/-- Claim C2: for the input `[::1]` the split of `join_server` yields the host
`::1` and the port 1, whatever the default port: the last colon, which is
inside the brackets, is taken for the port separator and `%d` reads the `1`
before the closing bracket. -/
theorem join_server_args_bracketed_port (default_port : Int) :
    join_server_args default_port (cstr "[::1]") = some (cstr "::1", 1) := by
  rfl

/-- Claim C3: loading the bytes a save has written yields the favourites of the
store, in their order, each with its address, name and description and with
`favourite = true`, `requiresPassword = false`, an empty version and no
players, whatever the store held before the load; `hcount` is the range of the
`int` `_numServerEntries`. -/
theorem load_save_round_trip (s prior : Store)
    (hcount : s.length < 2147483648)
    (h : ∀ e ∈ s, (0 : Nat) ∉ e.address ∧ (0 : Nat) ∉ e.name ∧ (0 : Nat) ∉ e.description) :
    server_list_load_server_entries (some (server_list_save_server_entries s)) prior
      = some ((s.filter (fun e => e.favourite)).map (fun e =>
          { address := e.address, name := e.name, requiresPassword := false,
            description := e.description, version := [], favourite := true,
            players := 0, maxplayers := 0 })) := by
  have hc : save_count s < 2147483648 := lt_of_le_of_lt (save_count_le s) hcount
  have hnn : ¬ ((save_count s : Int) < 0) := by omega
  simp only [server_list_load_server_entries, server_list_save_server_entries,
    read_count_write_uint32 _ _ hc, Int.toNat_ofNat, hnn, if_false]
  rw [load_entries_save_entries s h]

/-- Witness of C3: a favourite, a non-favourite with server data, and a second
favourite. -/
theorem load_save_round_trip_witness :
    server_list_load_server_entries (some (server_list_save_server_entries
        [sample_entry (cstr "a:1") true,
         { address := cstr "b:2", name := cstr "B", requiresPassword := true,
           description := cstr "second", version := cstr "v1", favourite := false,
           players := 3, maxplayers := 9 },
         { address := cstr "c:3", name := cstr "C", requiresPassword := true,
           description := cstr "third", version := cstr "v1", favourite := true,
           players := 3, maxplayers := 9 }])) [sample_entry (cstr "z") false]
      = some [sample_entry (cstr "a:1") true,
         { address := cstr "c:3", name := cstr "C", requiresPassword := false,
           description := cstr "third", version := [], favourite := true,
           players := 0, maxplayers := 0 }] :=
  load_save_round_trip _ _ (by decide) (by decide)

/-- Claim C4, amended: for a response with status 200 whose `servers` array holds
one object with name and version strings, an integer port within the range of
`int`, a first IPv4 string such that `ip:port` has at most 255 bytes, a
boolean `requiresPassword`, `players` and `maxPlayers` in 0..255 and an
optional description string, the store after `fetch_servers_callback` contains
an entry with the address `ip:port` and the name, description (empty if
absent), version, password flag and player counts of the response. -/
theorem fetch_servers_callback_merge (s : Store) (root server : json_t)
    (newname newversion ip : CStr) (description : Option CStr) (requiresPassword : Bool)
    (port players maxPlayers : Int)
    (hstatus : json_object_get (some root) (cstr "status") = some (json_t.integer 200))
    (hservers : json_object_get (some root) (cstr "servers") = some (json_t.array [server]))
    (hname : json_object_get (some server) (cstr "name") = some (json_t.string newname))
    (hversion : json_object_get (some server) (cstr "version") = some (json_t.string newversion))
    (hdescription : json_object_get (some server) (cstr "description")
      = description.map json_t.string)
    (hpassword : json_object_get (some server) (cstr "requiresPassword")
      = some (if requiresPassword then json_t.jtrue else json_t.jfalse))
    (hport : json_object_get (some server) (cstr "port") = some (json_t.integer port))
    (hip : json_array_get (json_object_get (json_object_get (some server) (cstr "ip"))
      (cstr "v4")) 0 = some (json_t.string ip))
    (hplayers : json_object_get (some server) (cstr "players") = some (json_t.integer players))
    (hmaxPlayers : json_object_get (some server) (cstr "maxPlayers")
      = some (json_t.integer maxPlayers))
    (hplayers_range : 0 ≤ players ∧ players ≤ 255)
    (hmaxPlayers_range : 0 ≤ maxPlayers ∧ maxPlayers ≤ 255)
    (hport_range : -2147483648 ≤ port ∧ port < 2147483648)
    (hlength : (ip ++ [58] ++ format_d port).length ≤ 255) :
    ∃ s', fetch_servers_callback s (some root) = some s' ∧
      ∃ e ∈ s', e.address = ip ++ [58] ++ format_d port ∧ e.name = newname
        ∧ e.description = description.getD [] ∧ e.version = newversion
        ∧ e.requiresPassword = requiresPassword
        ∧ (e.players : Int) = players ∧ (e.maxplayers : Int) = maxPlayers := by
  have haddr : snprintf_address (json_string_value (some (json_t.string ip))) (toInt32 port)
      = ip ++ [58] ++ format_d port := by
    simp only [snprintf_address, json_string_value, format_s, Option.getD_some,
      toInt32_of_range port hport_range]
    exact List.take_of_length_le hlength
  obtain ⟨e0, hget, he0⟩ := add_server_entry_get s (ip ++ [58] ++ format_d port)
  have hobj : ∃ members, server = json_t.object members := by
    cases server with
    | object members => exact ⟨members, rfl⟩
    | _ => simp [json_object_get] at hname
  obtain ⟨members, hm⟩ := hobj
  have hdesc' : (if (Option.map json_t.string description).isNone then some []
      else json_string_value (Option.map json_t.string description))
      = some (description.getD []) := by
    cases description <;> simp [json_string_value]
  have hpw' : json_boolean_value (some (if requiresPassword then json_t.jtrue else json_t.jfalse))
      = requiresPassword := by
    cases requiresPassword <;> simp [json_boolean_value]
  have hserver : fetch_servers_callback_server s server
      = some ((add_server_entry s (ip ++ [58] ++ format_d port)).1.set
          (add_server_entry s (ip ++ [58] ++ format_d port)).2
          { e0 with
            name := newname
            requiresPassword := requiresPassword
            description := description.getD []
            version := newversion
            players := (players % 256).toNat
            maxplayers := (maxPlayers % 256).toNat }) := by
    subst hm
    simp only [fetch_servers_callback_server, hname, hversion, hdescription, hpassword, hport,
      hip, hplayers, hmaxPlayers, Option.isNone_some, Bool.or_self, Bool.false_eq_true, if_false,
      json_integer_value, haddr, hdesc', hpw', hget]
    simp [json_string_value]
  have hcallback : fetch_servers_callback s (some root) = fetch_servers_callback_server s server := by
    simp only [fetch_servers_callback, hstatus, json_is_number, json_integer_value, hservers,
      fetch_servers_callback_loop]
    rw [toInt32_of_range 200 (by decide)]
    cases fetch_servers_callback_server s server <;> simp
  rw [hcallback, hserver]
  refine ⟨_, rfl, ?_⟩
  have hlt : (add_server_entry s (ip ++ [58] ++ format_d port)).2
      < (add_server_entry s (ip ++ [58] ++ format_d port)).1.length := by
    rcases List.get?_eq_some.1 hget with ⟨h, _⟩
    exact h
  refine ⟨_, List.getElem?_mem (List.getElem?_set_self hlt), ?_⟩
  refine ⟨he0, rfl, rfl, rfl, rfl, ?_, ?_⟩
  · show (((players % 256).toNat : Nat) : Int) = players
    omega
  · show (((maxPlayers % 256).toNat : Nat) : Int) = maxPlayers
    omega

/-- Witness of C4: the record Foo/v1/1.2.3.4/11753/2/8 merged into the empty
store, which then holds exactly that one entry. -/
theorem fetch_servers_callback_merge_witness :
    (∃ s', fetch_servers_callback [] (some (sample_response (cstr "1.2.3.4") 11753)) = some s' ∧
      ∃ e ∈ s', e.address = cstr "1.2.3.4:11753" ∧ e.name = cstr "Foo"
        ∧ e.description = [] ∧ e.version = cstr "v1" ∧ e.requiresPassword = false
        ∧ (e.players : Int) = 2 ∧ (e.maxplayers : Int) = 8)
      ∧ fetch_servers_callback [] (some (sample_response (cstr "1.2.3.4") 11753))
        = some [{ address := cstr "1.2.3.4:11753", name := cstr "Foo", requiresPassword := false,
                  description := [], version := cstr "v1", favourite := false,
                  players := 2, maxplayers := 8 }] :=
  ⟨fetch_servers_callback_merge [] (sample_response (cstr "1.2.3.4") 11753)
      (sample_server (cstr "1.2.3.4") 11753)
      (cstr "Foo") (cstr "v1") (cstr "1.2.3.4") none false 11753 2 8
      rfl rfl rfl rfl rfl rfl rfl rfl rfl rfl
      (by decide) (by decide) (by decide) (by decide),
    by decide⟩

set_option maxRecDepth 100000 in
/-- Counterexample to C4 as stated: a first IPv4 string of 256 bytes gives the
single entry the 255-byte address the buffer holds, not `ip:port`; and a port
of 4294979049 gives the address `1.2.3.4:11753`, the port converted to
`int`. -/
theorem fetch_servers_callback_address_truncated :
    (fetch_servers_callback [] (some (sample_response (List.replicate 256 97) 11753))
        = some [{ address := List.replicate 255 97, name := cstr "Foo", requiresPassword := false,
                  description := [], version := cstr "v1", favourite := false,
                  players := 2, maxplayers := 8 }]
      ∧ List.replicate 255 97 ≠ List.replicate 256 97 ++ [58] ++ format_d 11753)
    ∧ (fetch_servers_callback [] (some (sample_response (cstr "1.2.3.4") 4294979049))
        = some [{ address := cstr "1.2.3.4:11753", name := cstr "Foo", requiresPassword := false,
                  description := [], version := cstr "v1", favourite := false,
                  players := 2, maxplayers := 8 }]
      ∧ cstr "1.2.3.4:11753" ≠ cstr "1.2.3.4" ++ [58] ++ format_d 4294979049) := by
  decide

/-- Claim C5: when the version of the selected entry differs from
`NETWORK_STREAM_ID`, the list click and the join item of the dropdown both make
exactly two calls, the store of the entry's version as the format argument and
`window_error_open` with the incorrect-version message; `network_begin_client`
is not among them, whatever it would return, and the store is unchanged. -/
theorem join_version_mismatch (begin_client : CStr → Int → Bool) (default_port : Int)
    (NETWORK_STREAM_ID : CStr) (s : Store) (i : Nat) (e : server_entry)
    (he : s.get? i = some e) (hv : e.version ≠ NETWORK_STREAM_ID) :
    window_server_list_mouseup_list begin_client default_port NETWORK_STREAM_ID s (i : Int)
        = some [Effect.set_common_format_args e.version,
            Effect.window_error_open rct_string_id.STR_UNABLE_TO_CONNECT_TO_SERVER
              rct_string_id.STR_MULTIPLAYER_INCORRECT_SOFTWARE_VERSION]
      ∧ window_server_list_dropdown begin_client default_port NETWORK_STREAM_ID s (i : Int)
          DropdownIndex.DDIDX_JOIN
        = some (s, [Effect.set_common_format_args e.version,
            Effect.window_error_open rct_string_id.STR_UNABLE_TO_CONNECT_TO_SERVER
              rct_string_id.STR_MULTIPLAYER_INCORRECT_SOFTWARE_VERSION])
      ∧ ∀ host port, Effect.network_begin_client host port ∉
          [Effect.set_common_format_args e.version,
            Effect.window_error_open rct_string_id.STR_UNABLE_TO_CONNECT_TO_SERVER
              rct_string_id.STR_MULTIPLAYER_INCORRECT_SOFTWARE_VERSION] := by
  have hlt : i < s.length := by
    rcases List.get?_eq_some.1 he with ⟨h, _⟩
    exact h
  have h1 : (0 : Int) ≤ (i : Int) ∧ (i : Int) < (s.length : Int) :=
    ⟨by omega, by exact_mod_cast hlt⟩
  have h2 : ¬ ((i : Int) < 0) := by omega
  have h3 : ¬ ((i : Int) ≥ (s.length : Int)) := by omega
  refine ⟨?_, ?_, ?_⟩
  · simp only [window_server_list_mouseup_list, h1, and_self, if_true, Int.toNat_ofNat, he,
      hv, ne_eq, not_false_eq_true]
  · simp only [window_server_list_dropdown, h2, h3, if_false, Int.toNat_ofNat, he,
      hv, ne_eq, not_false_eq_true, if_true]
  · intro host port; simp

/-- Witness of C5: an entry of version `v1` against the local identifier `v2`,
with a connection capability that would succeed. -/
theorem join_version_mismatch_witness :
    window_server_list_mouseup_list (fun _ _ => true) 11753 (cstr "v2")
        [{ sample_entry (cstr "1.2.3.4:11753") false with version := cstr "v1" }] ((0 : Nat) : Int)
        = some [Effect.set_common_format_args (cstr "v1"),
            Effect.window_error_open rct_string_id.STR_UNABLE_TO_CONNECT_TO_SERVER
              rct_string_id.STR_MULTIPLAYER_INCORRECT_SOFTWARE_VERSION]
      ∧ window_server_list_dropdown (fun _ _ => true) 11753 (cstr "v2")
          [{ sample_entry (cstr "1.2.3.4:11753") false with version := cstr "v1" }]
          ((0 : Nat) : Int) DropdownIndex.DDIDX_JOIN
        = some ([{ sample_entry (cstr "1.2.3.4:11753") false with version := cstr "v1" }],
            [Effect.set_common_format_args (cstr "v1"),
            Effect.window_error_open rct_string_id.STR_UNABLE_TO_CONNECT_TO_SERVER
              rct_string_id.STR_MULTIPLAYER_INCORRECT_SOFTWARE_VERSION])
      ∧ ∀ host port, Effect.network_begin_client host port ∉
          [Effect.set_common_format_args (cstr "v1"),
            Effect.window_error_open rct_string_id.STR_UNABLE_TO_CONNECT_TO_SERVER
              rct_string_id.STR_MULTIPLAYER_INCORRECT_SOFTWARE_VERSION] :=
  join_version_mismatch (fun _ _ => true) 11753 (cstr "v2")
    [{ sample_entry (cstr "1.2.3.4:11753") false with version := cstr "v1" }] 0
    { sample_entry (cstr "1.2.3.4:11753") false with version := cstr "v1" } rfl (by decide)

/-- Claim C6: `add_server_entry` is idempotent: a second call with the same
address returns the index the first call returned and leaves the store as the
first call left it. -/
theorem add_server_entry_idempotent (s : Store) (address : CStr) :
    add_server_entry (add_server_entry s address).1 address
      = ((add_server_entry s address).1, (add_server_entry s address).2) := by
  unfold add_server_entry
  cases h : find_server_entry address s 0 with
  | some i => simp [h]
  | none => simp [find_server_entry_append, h, find_server_entry]

/-- Claim C7: for an input `X:P` with `P` a non-empty decimal numeral within the
range of `int`, the split of `join_server` yields the port `P` and the host
`X` when `X` contains a dot and no colon or bracket, and the host `H` when `X`
is `[H]` with `H` free of brackets. -/
theorem join_server_args_port (default_port : Int) (P : CStr) (hne : P ≠ [])
    (hd : ∀ c ∈ P, isdigit c = true) (hr : decimal_value P < 2147483648) :
    (∀ X : CStr, 46 ∈ X → 58 ∉ X → 91 ∉ X → 93 ∉ X →
        join_server_args default_port (X ++ [58] ++ P) = some (X, (decimal_value P : Int)))
      ∧ (∀ H : CStr, 91 ∉ H → 93 ∉ H →
        join_server_args default_port ([91] ++ H ++ [93] ++ [58] ++ P)
          = some (H, (decimal_value P : Int))) := by
  have h58 : 58 ∉ P := not_mem_of_digits P 58 hd (by decide)
  have h91 : 91 ∉ P := not_mem_of_digits P 91 hd (by decide)
  have h93 : 93 ∉ P := not_mem_of_digits P 93 hd (by decide)
  have hscan := sscanf_d_digits P hne hd hr
  constructor
  · intro X hdot hc hs he
    have hend : strrchr (X ++ [58] ++ P) 93 = none :=
      strrchr_eq_none _ _ (by simp [he, h93])
    have hstart : strrchr (X ++ [58] ++ P) 91 = none :=
      strrchr_eq_none _ _ (by simp [hs, h91])
    have hdot' : (strchr (X ++ [58] ++ P) 46).isSome = true :=
      strchr_isSome _ _ (by simp [hdot])
    have hcolon : strrchr (X ++ [58] ++ P) 58 = some X.length := by
      have := strrchr_append_cons X P 58 h58
      simpa using this
    have hdrop : (X ++ [58] ++ P).drop (X.length + 1) = P := by
      have : X ++ [58] ++ P = (X ++ [58]) ++ P := rfl
      rw [this, List.drop_left' (by simp)]
    have hsub : substr (X ++ [58] ++ P) 0 X.length = X := by
      rw [List.append_assoc]; exact substr_zero_append _ _
    simp only [join_server_args, hend, hstart, hdot', hcolon, hdrop, hsub, hscan,
      Option.isSome_none, Bool.false_or, if_true, Option.getD_some]
  · intro H hs he
    have hend : strrchr ([91] ++ H ++ [93] ++ [58] ++ P) 93 = some (H.length + 1) := by
      have := strrchr_append_cons ([91] ++ H) ([58] ++ P) 93 (by simp [h93])
      simpa [Nat.add_comm] using this
    have hstart : strrchr ([91] ++ H ++ [93] ++ [58] ++ P) 91 = some 0 := by
      have := strrchr_append_cons [] (H ++ [93] ++ [58] ++ P) 91 (by simp [hs, h91])
      simpa using this
    have hcolon : strrchr ([91] ++ H ++ [93] ++ [58] ++ P) 58 = some (H.length + 2) := by
      have := strrchr_append_cons ([91] ++ H ++ [93]) P 58 h58
      have hl : ([91] ++ H ++ [93]).length = H.length + 2 := by
        simp only [List.length_append, List.length_cons, List.length_nil]; omega
      rw [hl] at this
      simpa using this
    have hdrop : ([91] ++ H ++ [93] ++ [58] ++ P).drop (H.length + 2 + 1) = P := by
      have : [91] ++ H ++ [93] ++ [58] ++ P = ([91] ++ H ++ [93] ++ [58]) ++ P := rfl
      rw [this, List.drop_left' (by
        simp only [List.length_append, List.length_cons, List.length_nil]; omega)]
    have hsub : substr ([91] ++ H ++ [93] ++ [58] ++ P) (0 + 1) (H.length + 1 - 0 - 1) = H := by
      simp [substr]
    simp only [join_server_args, hend, hstart, hcolon, hdrop, hsub, hscan,
      Option.isSome_some, Bool.true_or, if_true, Option.getD_some, Nat.not_lt_zero, if_false]

/-- Witness of C7: `example.com:1234` and `[::1]:1234`. -/
theorem join_server_args_port_witness :
    join_server_args 11753 (cstr "example.com:1234") = some (cstr "example.com", 1234)
      ∧ join_server_args 11753 (cstr "[::1]:1234") = some (cstr "::1", 1234) :=
  ⟨(join_server_args_port 11753 (cstr "1234") (by decide) (by decide) (by decide)).1
      (cstr "example.com") (by decide) (by decide) (by decide) (by decide),
    (join_server_args_port 11753 (cstr "1234") (by decide) (by decide) (by decide)).2
      (cstr "::1") (by decide) (by decide)⟩

/-- Claim C8, amended: when the text after the last colon (if there is one) does
not begin, after optional white space and an optional sign, with a decimal
digit, and the last `[` does not come after the last `]`, the split of
`join_server` returns the default port. -/
theorem join_server_args_default_port (default_port : Int) (address : CStr)
    (hnum : ∀ c, strrchr address 58 = some c → begins_with_numeral (address.drop (c + 1)) = false)
    (hbr : ∀ sb eb, strrchr address 91 = some sb → strrchr address 93 = some eb → sb < eb) :
    ∃ host, join_server_args default_port address = some (host, default_port) := by
  unfold join_server_args
  cases hc : strrchr address 58 with
  | none =>
    cases hs : strrchr address 91 with
    | none => exact ⟨_, rfl⟩
    | some sb =>
      cases he : strrchr address 93 with
      | none => exact ⟨_, rfl⟩
      | some eb =>
        have hn : ¬ eb < sb := by have := hbr sb eb hs he; omega
        exact ⟨substr address (sb + 1) (eb - sb - 1), by simp only [hn, if_false]⟩
  | some c =>
    have hscan := sscanf_d_eq_none _ (hnum c hc)
    cases hs : strrchr address 91 with
    | none =>
      simp only [hscan, Option.getD_none]
      split <;> exact ⟨_, rfl⟩
    | some sb =>
      cases he : strrchr address 93 with
      | none =>
        simp only [hscan, Option.getD_none]
        split <;> exact ⟨_, rfl⟩
      | some eb =>
        have hn : ¬ eb < sb := by have := hbr sb eb hs he; omega
        simp only [hscan, Option.getD_none, hn, if_false, Option.isSome_some, Bool.true_or, if_true]
        exact ⟨_, rfl⟩

/-- Witness of C8: the port text `x12` of `a.b:x12` is not numeric. -/
theorem join_server_args_default_port_witness :
    ∃ host, join_server_args 11753 (cstr "a.b:x12") = some (host, 11753) :=
  join_server_args_default_port 11753 (cstr "a.b:x12")
    (fun c h => by
      have h3 : strrchr (cstr "a.b:x12") 58 = some 3 := by decide
      rw [h3] at h
      cases h
      decide)
    (fun sb eb h _ => by
      have h0 : strrchr (cstr "a.b:x12") 91 = none := by decide
      rw [h0] at h
      cases h)

/-- Counterexample to C8 as stated: for `a.b:12ab`, whose port text is digits
followed by letters, the port is 12 and not the default 11753. -/
theorem join_server_args_leading_digits :
    join_server_args 11753 (cstr "a.b:12ab") = some (cstr "a.b", 12) ∧ (12 : Int) ≠ 11753 := by
  decide

/-- Claim C9: for `k < N`, `remove_server_entry(k)` leaves `N - 1` entries, the
entries before `k` where they were and every later entry one position lower. -/
theorem remove_server_entry_shift (s : Store) (k : Nat) (h : k < s.length) :
    ∃ s', remove_server_entry s (k : Int) = some s' ∧ s'.length = s.length - 1 ∧
      (∀ j, j < k → s'.get? j = s.get? j) ∧ (∀ j, k ≤ j → s'.get? j = s.get? (j + 1)) := by
  refine ⟨s.eraseIdx k, ?_, ?_, ?_, ?_⟩
  · have hi : (s.length : Int) > (k : Int) := by exact_mod_cast h
    have hn : ¬ ((k : Int) < 0) := by omega
    simp [remove_server_entry, hi, hn]
  · rw [List.length_eraseIdx]; simp [h]
  · intro j hj
    simp [List.getElem?_eraseIdx, hj]
  · intro j hj
    have : ¬ j < k := by omega
    simp [List.getElem?_eraseIdx, this]

/-- Witness of C9: the middle entry of three removed. -/
theorem remove_server_entry_shift_witness :
    ∃ s', remove_server_entry [sample_entry (cstr "a") true, sample_entry (cstr "b") false,
        sample_entry (cstr "c") true] ((1 : Nat) : Int) = some s' ∧
      s'.length = [sample_entry (cstr "a") true, sample_entry (cstr "b") false,
        sample_entry (cstr "c") true].length - 1 ∧
      (∀ j, j < 1 → s'.get? j = [sample_entry (cstr "a") true, sample_entry (cstr "b") false,
        sample_entry (cstr "c") true].get? j) ∧
      (∀ j, 1 ≤ j → s'.get? j = [sample_entry (cstr "a") true, sample_entry (cstr "b") false,
        sample_entry (cstr "c") true].get? (j + 1)) :=
  remove_server_entry_shift _ 1 (by decide)

/-- Claim C10, amended: for an index at or above the number of entries the
guard `_numServerEntries > index` fails and `remove_server_entry` leaves the
store, its count and every entry, as it was. -/
theorem remove_server_entry_out_of_range (s : Store) (index : Int)
    (h : (s.length : Int) ≤ index) : remove_server_entry s index = some s := by
  have hn : ¬ ((s.length : Int) > index) := by omega
  simp [remove_server_entry, hn]

/-- Witness of C10: the indices 2 and 7 on a store of two entries. -/
theorem remove_server_entry_out_of_range_witness :
    remove_server_entry [sample_entry (cstr "a") true, sample_entry (cstr "b") false] 2
        = some [sample_entry (cstr "a") true, sample_entry (cstr "b") false]
      ∧ remove_server_entry [sample_entry (cstr "a") true, sample_entry (cstr "b") false] 7
        = some [sample_entry (cstr "a") true, sample_entry (cstr "b") false] :=
  ⟨remove_server_entry_out_of_range _ 2 (by decide),
    remove_server_entry_out_of_range _ 7 (by decide)⟩

/-- Counterexample to C10 as stated: the index -1 passes the guard on a store of
one entry, so the call is not a no-op there: the `memmove` writes before the
start of the array and the count is decremented. -/
theorem remove_server_entry_negative :
    remove_server_entry [sample_entry (cstr "a") true] (-1) = none
      ∧ remove_server_entry [sample_entry (cstr "a") true] (-1)
        ≠ some [sample_entry (cstr "a") true] := by
  decide

/-- Claim C11: in a response with status 200, an element of `servers` that is
not an object, or has no `name`, or has no `version`, leaves every store as it
is, and the callback on `xs ++ [bad] ++ ys` ends in the same state as on
`xs ++ ys`. -/
theorem fetch_servers_callback_skips_bad_element (s : Store) (root root' : json_t)
    (xs ys : List json_t) (bad : json_t)
    (hbad : (∀ members, bad ≠ json_t.object members)
      ∨ json_object_get (some bad) (cstr "name") = none
      ∨ json_object_get (some bad) (cstr "version") = none)
    (hstatus : json_object_get (some root) (cstr "status") = some (json_t.integer 200))
    (hservers : json_object_get (some root) (cstr "servers")
      = some (json_t.array (xs ++ [bad] ++ ys)))
    (hstatus' : json_object_get (some root') (cstr "status") = some (json_t.integer 200))
    (hservers' : json_object_get (some root') (cstr "servers") = some (json_t.array (xs ++ ys))) :
    (∀ t : Store, fetch_servers_callback_server t bad = some t)
      ∧ fetch_servers_callback s (some root) = fetch_servers_callback s (some root') := by
  refine ⟨fun t => fetch_servers_callback_server_skips t bad hbad, ?_⟩
  have h200 : toInt32 200 = 200 := toInt32_of_range 200 (by decide)
  simp only [fetch_servers_callback, hstatus, hstatus', hservers, hservers', json_is_number,
    json_integer_value, h200, List.append_assoc, fetch_servers_callback_loop_append]
  simp only [Bool.not_true, Bool.false_eq_true, if_false, ne_eq, not_true_eq_false]
  cases fetch_servers_callback_loop xs s with
  | none => rfl
  | some t =>
    simp only [Option.some_bind, List.singleton_append, fetch_servers_callback_loop,
      fetch_servers_callback_server_skips t bad hbad]

/-- Witness of C11: a server without `version` between two servers that are
merged. -/
theorem fetch_servers_callback_skips_bad_element_witness :
    (∀ t : Store, fetch_servers_callback_server t unversioned_server = some t)
      ∧ fetch_servers_callback [sample_entry (cstr "a:1") true]
          (some (response_of ([sample_server (cstr "1.2.3.4") 11753] ++ [unversioned_server]
            ++ [sample_server (cstr "9.9.9.9") 11755])))
        = fetch_servers_callback [sample_entry (cstr "a:1") true]
          (some (response_of ([sample_server (cstr "1.2.3.4") 11753]
            ++ [sample_server (cstr "9.9.9.9") 11755]))) :=
  fetch_servers_callback_skips_bad_element [sample_entry (cstr "a:1") true]
    (response_of ([sample_server (cstr "1.2.3.4") 11753] ++ [unversioned_server]
      ++ [sample_server (cstr "9.9.9.9") 11755]))
    (response_of ([sample_server (cstr "1.2.3.4") 11753]
      ++ [sample_server (cstr "9.9.9.9") 11755]))
    [sample_server (cstr "1.2.3.4") 11753] [sample_server (cstr "9.9.9.9") 11755]
    unversioned_server (Or.inr (Or.inr rfl)) rfl rfl rfl rfl

/-- Claim C12, amended: in every state reached from the empty store by a
sequence of loads, `add_server_entry`, `remove_server_entry`, favourite
toggles, purges and fetch merges, each with a defined outcome, no two entries
have the same address, provided every file that is loaded lists no address
twice.  (The load of a file whose count is negative has no defined outcome,
so no state is reached through it.) -/
theorem address_uniqueness_invariant (ops : List Operation) (s : Store)
    (hload : ∀ file entries, Operation.load (some file) ∈ ops →
      decoded_entries file = some entries → unique_addresses entries)
    (h : run_operations [] ops = some s) : unique_addresses s :=
  unique_addresses_run ops [] s hload h (by simp [unique_addresses])

/-- Witness of C12: a load, two adds of one address, a merge, a toggle, a purge
and a removal; the run ends in a store of one entry. -/
theorem address_uniqueness_invariant_witness :
    run_operations [] sample_operations = some [sample_entry (cstr "b:2") true]
      ∧ unique_addresses [sample_entry (cstr "b:2") true] :=
  ⟨sample_run,
    address_uniqueness_invariant sample_operations [sample_entry (cstr "b:2") true]
      (fun file entries hm hd => by
        have hf : file = single_file := by
          simp only [sample_operations, List.mem_cons, Operation.load.injEq, Option.some.injEq,
            reduceCtorEq, List.mem_singleton, or_false, false_or, List.not_mem_nil] at hm
          exact hm
        subst hf
        have he : decoded_entries single_file
            = some [{ sample_entry (cstr "a:1") true with name := cstr "x" }] := by decide
        rw [he] at hd
        cases hd
        show List.Nodup _
        decide)
      sample_run⟩

/-- Counterexample to C12 as stated: the load of a file whose two records carry
the address `a:1` leaves two entries with that address. -/
theorem load_duplicate_addresses :
    run_operations [] [Operation.load (some duplicate_file)]
        = some [{ sample_entry (cstr "a:1") true with name := cstr "x" },
                { sample_entry (cstr "a:1") true with name := cstr "y" }]
      ∧ ¬ unique_addresses [{ sample_entry (cstr "a:1") true with name := cstr "x" },
                { sample_entry (cstr "a:1") true with name := cstr "y" }] := by
  constructor
  · decide
  · simp [unique_addresses, sample_entry]

/-- Claim C13: when `servers.cfg` does not open, `server_list_load_server_entries`
returns before `dispose_server_entry_list` and the store keeps every entry it
had; it is not emptied. -/
theorem load_missing_file_keeps_store (s : Store) :
    server_list_load_server_entries none s = some s := rfl

end ServerList
